import Mathlib

/-!
Shallow embedding of the `distributive` host-state assertion checks
(`packages.go` and `systemctl.go`).  External effects (file contents,
command output, command start errors) are passed in as explicit
parameters; `log.Fatal` and slice-bound panics are modelled by the
`Outcome` type.
-/

set_option maxRecDepth 4000

/-- Outcome of invoking one check thunk: a normal `(exitCode, message)`
return, process termination via `log.Fatal`, or a runtime panic. -/
inductive Outcome where
  | result (exitCode : Nat) (message : String) : Outcome
  | fatal (message : String) : Outcome
  | panicked : Outcome
deriving DecidableEq

/-- Lifts a plain `(exitCode, message)` pair into an `Outcome`. -/
def Outcome.ofPair (p : Nat × String) : Outcome := Outcome.result p.1 p.2

/-- Whitespace as matched by Go regexp `\s`: `[\t\n\v\f\r ]`. -/
def isSpaceGo (c : Char) : Bool :=
  c == ' ' || c == '\t' || c == '\n' || c == Char.ofNat 11 || c == Char.ofNat 12 || c == '\r'

/-- Splits a character list around maximal runs of characters satisfying
`p`, keeping the (possibly empty) pieces between runs, exactly like Go
`regexp.MustCompile("\\s+").Split(s, -1)` when `p` is whitespace. -/
def splitRuns (p : Char → Bool) : List Char → List (List Char)
  | [] => [[]]
  | c :: rest =>
    let r := splitRuns p rest
    if p c then
      match rest with
      | c2 :: _ => if p c2 then r else [] :: r
      | [] => [] :: r
    else
      match r with
      | h :: t => (c :: h) :: t
      | [] => [[c]]

/-- Go `regexp.MustCompile("\\s+").Split(s, -1)` as a list of strings. -/
def splitWS (s : String) : List String :=
  (splitRuns isSpaceGo s.data).map String.mk

/-- Whitespace-delimited fields of a line (empty tokens dropped), the
field notion used by the Tabular Output Reader. -/
def fields (s : String) : List String :=
  ((splitRuns isSpaceGo s.data).filter (fun cs => !cs.isEmpty)).map String.mk

/-- Go `strings.TrimPrefix`: drops `pre` from the front of `s` when it
is present, otherwise returns `s` unchanged. -/
def trimPre (s pre : String) : String :=
  if pre.data <+: s.data then String.mk (s.data.drop pre.data.length) else s

/-- Go `strings.Contains sub s`: `sub` occurs contiguously inside `s`. -/
def containsStr (s sub : String) : Bool :=
  decide (sub.data <:+: s.data)

/-- Modelled from the spec: `strIn` (a helper outside the two shown
files) is exact membership of a string in a candidate list. -/
def strIn (val : String) (xs : List String) : Bool :=
  xs.contains val

/-- Joins strings with single spaces, the body of Go
`fmt.Sprint` applied to a string slice. -/
def joinSpace : List String → String
  | [] => ""
  | [x] => x
  | x :: y :: rest => x ++ " " ++ joinSpace (y :: rest)

/-- Go `fmt.Sprint` rendering of a string slice: elements joined by
single spaces inside square brackets. -/
def sprintList (xs : List String) : String :=
  "[" ++ joinSpace xs ++ "]"

/-- Modelled from the spec: the Generic Mismatch Reporter (a helper
outside the two shown files) always returns failure code 1 with the
fixed-shape message made of label, expected value and candidate list. -/
def genericError (label expected : String) (candidates : List String) : Nat × String :=
  (1, label ++ "\n\tExpected: " ++ expected ++ "\n\tCandidates: " ++ sprintList candidates)

/-- Modelled from the spec: the Tabular Output Reader. For each line,
split on runs of whitespace; a line with at least `index + 1` fields
emits field `index`, any shorter line contributes nothing. -/
def column (index : Nat) (lines : List String) : List String :=
  lines.filterMap (fun line => (fields line).get? index)

/-- Modelled from the spec: `commandColumnNoHeader` (a helper outside
the two shown files) applies the Tabular Output Reader to command
output after stripping the leading header line, as its name states. -/
def commandColumnNoHeader (index : Nat) (lines : List String) : List String :=
  column index (lines.drop 1)

/-- Go slice expression `xs[:n]` where `n` is a (possibly negative)
machine integer: `none` models the out-of-range panic. -/
def goSliceTo (xs : List String) (n : Int) : Option (List String) :=
  if 0 ≤ n ∧ n ≤ (xs.length : Int) then some (xs.take n.toNat) else none

/-! ## packages.go -/

/-- The probe condition of `getManager` inside `Installed`
(packages.go): the candidate counts as found exactly when the error
message of starting `program --version` (empty when there is no error)
does not contain "not found".  `probeErr` gives the start error, if
any, of each candidate program. -/
def goodProbe (probeErr : String → Option String) (program : String) : Bool :=
  !containsStr ((probeErr program).getD "") "not found"

/-- The loop of `getManager` (packages.go, lines 17-28): first candidate
whose probe does not fail with "not found". -/
def getManagerLoop (probeErr : String → Option String) : List String → Option String
  | [] => none
  | program :: rest =>
    if goodProbe probeErr program then some program
    else getManagerLoop probeErr rest

/-- `getManager` (packages.go, lines 16-31): returns the first usable
package manager, or `log.Fatal` (modelled as `Except.error`) naming all
attempted candidates when none is usable. -/
def getManager (probeErr : String → Option String) (managers : List String) :
    Except String String :=
  match getManagerLoop probeErr managers with
  | some program => Except.ok program
  | none => Except.error ("No package manager found. Attempted: " ++ sprintList managers)

/-- The handwritten failure message of `Installed` (packages.go,
lines 53-55). -/
def installedMsg (pkg manager : String) : String :=
  "Package was not found:" ++ "\n\tPackage name: " ++ pkg ++ "\n\tPackage manager: " ++ manager

/-- The check thunk of `Installed` (packages.go, lines 46-57).
`queryOut` is the captured output of `manager options pkg`. -/
def Installed (probeErr : String → Option String) (queryOut : String → String)
    (keys : List String) (pkg : String) : Outcome :=
  match getManager probeErr keys with
  | Except.error m => Outcome.fatal m
  | Except.ok name =>
    if containsStr (queryOut name) pkg then Outcome.result 0 ""
    else Outcome.result 1 (installedMsg pkg name)

/-- Comment test `regexp.MustCompile("^\\s*#.*").Match`: the line starts
with optional whitespace followed by a hash. -/
def isComment (s : String) : Bool :=
  match s.data.dropWhile isSpaceGo with
  | '#' :: _ => true
  | _ => false

/-- `getAptSources` (packages.go, lines 64-74) over already-tokenized
lines of the sources file: second token of every non-comment line with
more than one token. -/
def getAptSources (split : List (List String)) : List String :=
  split.filterMap (fun line =>
    if line.length > 1 && !isComment (line.getD 0 "") then some (line.getD 1 "")
    else none)

/-- `getPPAs` (packages.go, lines 76-83): apt source urls containing
"ppa". -/
def getPPAs (split : List (List String)) : List String :=
  (getAptSources split).filter (fun url => containsStr url "ppa")

/-- The loop of the `PPA` check thunk (packages.go, lines 95-101):
`some` is an early return, `none` means the loop ran off the end. -/
def ppaScan (validURL : String → Bool) (name : String) : List String → Option (Nat × String)
  | [] => none
  | ppa :: rest =>
    if !validURL ppa then some (1, "PPA URL invalid: " ++ ppa)
    else if containsStr ppa name then some (0, "")
    else ppaScan validURL name rest

/-- The `PPA` check thunk body (packages.go, lines 93-103) applied to an
explicit candidate list; `validURL` models `url.Parse` succeeding. -/
def ppaResult (validURL : String → Bool) (name : String) (ppas : List String) : Nat × String :=
  match ppaScan validURL name ppas with
  | some r => r
  | none => genericError "PPA not found" name ppas

/-- `PPA` (packages.go, lines 61-104) over the tokenized sources file. -/
def PPA (validURL : String → Bool) (name : String) (split : List (List String)) : Nat × String :=
  ppaResult validURL name (getPPAs split)

/-- A Yum repository record (packages.go, lines 106-108). -/
structure YumRepo where
  Name : String
  Fullname : String
  Url : String
deriving DecidableEq

/-- The `name=` extraction pass of `getYumRepos` (packages.go,
lines 115-128): values of non-comment lines whose `name=` whole-line
trim changed the line. -/
def yumNames : List String → List String
  | [] => []
  | line :: rest =>
    if isComment line then yumNames rest
    else if trimPre line "name=" ≠ line then trimPre line "name=" :: yumNames rest
    else yumNames rest

/-- The `baseurl=` extraction pass of `getYumRepos` (packages.go,
lines 115-128); the `name=` branch takes precedence (else-if). -/
def yumUrls : List String → List String
  | [] => []
  | line :: rest =>
    if isComment line then yumUrls rest
    else if trimPre line "name=" ≠ line then yumUrls rest
    else if trimPre line "baseurl=" ≠ line then trimPre line "baseurl=" :: yumUrls rest
    else yumUrls rest

/-- Record construction inside `getYumRepos` (packages.go,
lines 136-141): the short name is the last whitespace-delimited token
of the full name. -/
def mkYumRepo (fullName url : String) : YumRepo :=
  let nameSplit := splitWS fullName
  { Name := nameSplit.getD (nameSplit.length - 1) "", Fullname := fullName, Url := url }

/-- The zip loop of `getYumRepos` (packages.go, lines 130-143): iterate
over the shorter of the two columns so indexing never goes out of
range. -/
def assembleRepos (fullNames urls : List String) : List YumRepo :=
  let shortList := if fullNames.length > urls.length then urls else fullNames
  (List.range shortList.length).map fun i =>
    mkYumRepo (fullNames.getD i "") (urls.getD i "")

/-- `getYumRepos` (packages.go, lines 111-144) over the lines of the
config file. -/
def getYumRepos (lines : List String) : List YumRepo :=
  assembleRepos (yumNames lines) (yumUrls lines)

/-- The property switch of `existsRepoWithProperty` (packages.go,
lines 153-162): `none` is the `log.Fatal` default branch. -/
def propOf (repo : YumRepo) (prop : String) : Option String :=
  if prop = "Url" then some repo.Url
  else if prop = "Name" then some repo.Name
  else if prop = "Fullname" then some repo.Fullname
  else none

/-- The collection loop of `existsRepoWithProperty` (packages.go,
lines 151-163): gathers the chosen field of every repo, fataling on an
unsupported property at the first repo. -/
def collectProps (prop : String) : List YumRepo → Except String (List String)
  | [] => Except.ok []
  | repo :: rest =>
    match propOf repo prop with
    | some p => (collectProps prop rest).map (fun ps => p :: ps)
    | none => Except.error ("Yum repos don't have the requested property: " ++ prop)

/-- `existsRepoWithProperty` (packages.go, lines 150-169) over the
lines of the yum config file. -/
def existsRepoWithProperty (lines : List String) (prop val : String) : Outcome :=
  match collectProps prop (getYumRepos lines) with
  | Except.error m => Outcome.fatal m
  | Except.ok properties =>
    if strIn val properties then Outcome.result 0 ""
    else Outcome.ofPair (genericError ("Yum repo with given " ++ prop ++ " not found") val properties)

/-- `YumRepoExists` (packages.go, lines 172-176). -/
def YumRepoExists (lines : List String) (name : String) : Outcome :=
  existsRepoWithProperty lines "Name" name

/-- `YumRepoURL` (packages.go, lines 179-183). -/
def YumRepoURL (lines : List String) (urlstr : String) : Outcome :=
  existsRepoWithProperty lines "Url" urlstr

/-- Largest count `k` with `1 ≤ k ≤ bound` of leading characters the
`\s+` part of `\s+.+` may keep while leaving a `.`-matchable (non
newline) character at position `k`; regexp greediness tries the largest
split first. -/
def backtrackWS (cs : List Char) : Nat → Option Nat
  | 0 => none
  | Nat.succ k =>
    match cs.get? (Nat.succ k) with
    | some c => if c ≠ '\n' then some (Nat.succ k) else backtrackWS cs k
    | none => backtrackWS cs k

/-- Matches the regexp tail `\s+.+` at the front of `cs`, returning the
consumed characters (`\s+` greedy, then `.+` greedy on non-newline
characters). -/
def matchTailWS (cs : List Char) : Option (List Char) :=
  let m := (cs.takeWhile isSpaceGo).length
  if m = 0 then none
  else
    match backtrackWS cs m with
    | none => none
    | some k => some (cs.take k ++ (cs.drop k).takeWhile (fun c => c ≠ '\n'))

/-- Attempts to match `[^#]IgnorePkg\s+=\s+.+` at the start of `cs`,
returning the matched characters. -/
def matchIgnoreAt (cs : List Char) : Option (List Char) :=
  match cs with
  | [] => none
  | c :: rest =>
    if c = '#' then none
    else if ("IgnorePkg").data <+: rest then
      let after := rest.drop 9
      let ws1 := after.takeWhile isSpaceGo
      let r1 := after.dropWhile isSpaceGo
      if ws1 = [] then none
      else
        match r1 with
        | '=' :: r2 =>
          match matchTailWS r2 with
          | some consumed => some (c :: ("IgnorePkg").data ++ ws1 ++ '=' :: consumed)
          | none => none
        | _ => none
    else none

/-- Go `regexp.MustCompile("[^#]IgnorePkg\\s+=\\s+.+").FindString`:
leftmost match, or the empty string when there is none. -/
def findIgnore : List Char → String
  | [] => ""
  | c :: rest =>
    match matchIgnoreAt (c :: rest) with
    | some m => String.mk m
    | none => findIgnore rest

/-- Go `strings.Split(s, " ")`: split on every single space, keeping
empty pieces. -/
def splitSpace (s : String) : List String :=
  (s.data.splitOn ' ').map String.mk

/-- The `packages` variable of `pacmanIgnore` (packages.go,
lines 192-200): tokens after `IgnorePkg` and `=` of the regexp match,
split on single spaces; empty when there is no match or fewer than
three tokens. -/
def pacmanPackages (data : String) : List String :=
  let find := findIgnore data.data
  if find ≠ "" then
    let spl := splitSpace find
    if spl.length > 2 then spl.drop 2 else []
  else []

/-- `pacmanIgnore` (packages.go, lines 187-205) over the contents of
the pacman config file.  The source's early `return 0, ""` inside the
nested ifs fires exactly when `pkg` is a member of `pacmanPackages`,
and that list stays empty on every other path, so the two conditionals
fold into one membership test. -/
def pacmanIgnore (data pkg : String) : Nat × String :=
  if strIn pkg (pacmanPackages data) then (0, "")
  else genericError "Couldn't find package in IgnorePkg" pkg (pacmanPackages data)

/-! ## systemctl.go -/

/-- `systemctlExists` (systemctl.go, lines 12-18): `versionErr` is the
error, if any, of running `systemctl --version`. -/
def systemctlExists (versionErr : Option String) : Bool :=
  match versionErr with
  | some e => !containsStr e "not found in $PATH"
  | none => true

/-- The loop of `systemctlService` (systemctl.go, lines 47-54):
carries the running `actualState`; the `Bool` is true exactly when the
loop returned early with `(0, "")`. -/
def svcScan (service state : String) (statuses : List String) :
    List String → Nat → String → Bool × String
  | [], _, actualState => (false, actualState)
  | srv :: rest, i, actualState =>
    if service = srv ∧ i < statuses.length then
      let a := statuses.getD i ""
      if a = state then (true, a)
      else svcScan service state statuses rest (i + 1) a
    else svcScan service state statuses rest (i + 1) actualState

/-- `systemctlService` (systemctl.go, lines 30-58) over the lines of
`systemctl --no-pager list-units`; both column extractions read the
same captured output. -/
def systemctlService (versionErr : Option String) (lines : List String)
    (service : String) (loaded : Bool) : Outcome :=
  if systemctlExists versionErr = false then Outcome.fatal "Couldn't execute systemctl"
  else
    let col := if loaded then 1 else 2
    let state := if loaded then "loaded" else "active"
    let names := commandColumnNoHeader 1 lines
    let statuses := commandColumnNoHeader (col + 1) lines
    match svcScan service state statuses names 0 "" with
    | (true, _) => Outcome.result 0 ""
    | (false, actualState) =>
      Outcome.ofPair (genericError "Service did not have state" state [actualState])

/-- `systemctlLoaded` (systemctl.go, lines 61-63). -/
def systemctlLoaded (versionErr : Option String) (lines : List String)
    (service : String) : Outcome :=
  systemctlService versionErr lines service true

/-- `systemctlActive` (systemctl.go, lines 66-68). -/
def systemctlActive (versionErr : Option String) (lines : List String)
    (service : String) : Outcome :=
  systemctlService versionErr lines service false

/-- `systemctlSock` (systemctl.go, lines 73-87) over the lines of
`systemctl list-sockets`. -/
def systemctlSock (versionErr : Option String) (lines : List String)
    (value : String) (path : Bool) : Outcome :=
  if systemctlExists versionErr = false then Outcome.fatal "Couldn't execute systemctl"
  else
    let col := if path then 0 else 1
    let values := commandColumnNoHeader col lines
    if strIn value values then Outcome.result 0 ""
    else Outcome.ofPair (genericError "Socket not found" value values)

/-- One character of the regexp class `(\w|-)`. -/
def isTimerChar (c : Char) : Bool :=
  c.isAlphanum || c == '_' || c == '-'

/-- Go `regexp.MustCompile("(\\w|\\-)+\\.timer").FindAllString(s, -1)`:
all leftmost non-overlapping matches. -/
def findTimers : List Char → List String
  | [] => []
  | c :: rest =>
    if h : isTimerChar c then
      let run := (c :: rest).takeWhile isTimerChar
      let after := (c :: rest).dropWhile isTimerChar
      if (".timer").data <+: after then
        String.mk (run ++ (".timer").data) :: findTimers (after.drop 6)
      else findTimers rest
    else findTimers rest
  termination_by cs => cs.length
  decreasing_by
  · simp only [List.dropWhile_cons, h, if_true]
    have h1 := (List.dropWhile_suffix (l := rest) isTimerChar).length_le
    have h2 := List.length_drop 6 (List.dropWhile isTimerChar rest)
    have h3 : (c :: rest).length = rest.length + 1 := List.length_cons c rest
    omega
  · simp
  · simp

/-- `getTimers` (systemctl.go, lines 101-114): `cmdOut` is the combined
output of `systemctl list-timers [--all]` or its execution error, which
is fatal. -/
def getTimers (cmdOut : Except String String) : Except String (List String) :=
  match cmdOut with
  | Except.error e =>
    Except.error ("Couldn't execute `systemctl list-timers`:\n\t" ++ e)
  | Except.ok out => Except.ok (findTimers out.data)

/-- `timersThunk` (systemctl.go, lines 117-125). -/
def timersThunk (cmdOut : Except String String) (unit : String) : Outcome :=
  match getTimers cmdOut with
  | Except.error m => Outcome.fatal m
  | Except.ok timers =>
    if strIn unit timers then Outcome.result 0 ""
    else Outcome.ofPair (genericError "Timer not found" unit timers)

/-- The loop of `systemctlUnitFileStatus` (systemctl.go,
lines 154-161); `statuses` is indexed without a bounds check, so a
missing entry is a panic. -/
def ufsScan (unit status : String) (statuses : List String) :
    List String → Nat → String → Outcome
  | [], _, actualStatus =>
    Outcome.ofPair (genericError "Unit didn't have status" status [actualStatus])
  | un :: rest, i, actualStatus =>
    if un = unit then
      match statuses.get? i with
      | none => Outcome.panicked
      | some a =>
        if a = status then Outcome.result 0 ""
        else ufsScan unit status statuses rest (i + 1) a
    else ufsScan unit status statuses rest (i + 1) actualStatus

/-- `systemctlUnitFileStatus` (systemctl.go, lines 140-165) over the
lines of `systemctl --no-pager list-unit-files`; the last two rows of
each column are dropped by Go slice expressions that panic when a
column has fewer than two entries. -/
def systemctlUnitFileStatus (lines : List String) (unit status : String) : Outcome :=
  let units0 := commandColumnNoHeader 0 lines
  let statuses0 := commandColumnNoHeader 1 lines
  match goSliceTo units0 ((units0.length : Int) - 2),
        goSliceTo statuses0 ((statuses0.length : Int) - 2) with
  | some units, some statuses => ufsScan unit status statuses units 0 ""
  | _, _ => Outcome.panicked

/-- A message is an output of the Generic Mismatch Reporter for some
label, expected value and candidate list. -/
def isGenericMessage (m : String) : Prop :=
  ∃ label expected candidates, (genericError label expected candidates).2 = m

/-! ## Helper lemmas -/

theorem containsStr_of_infix {s sub : String} (h : sub.data <:+: s.data) :
    containsStr s sub = true :=
  decide_eq_true h

theorem infix_of_containsStr {s sub : String} (h : containsStr s sub = true) :
    sub.data <:+: s.data :=
  of_decide_eq_true h

theorem expectedLit_infix (label expected : String) (candidates : List String) :
    ("\n\tExpected: ").data <:+: ((genericError label expected candidates).2).data := by
  refine ⟨label.data,
    expected.data ++ ("\n\tCandidates: ").data ++ (sprintList candidates).data, ?_⟩
  simp [genericError, String.data_append, List.append_assoc]

theorem genericError_exit (label expected : String) (candidates : List String) :
    (genericError label expected candidates).1 = 1 := rfl

theorem genericError_msg_ne (label expected : String) (candidates : List String) :
    (genericError label expected candidates).2 ≠ "" := by
  intro h
  have hi := expectedLit_infix label expected candidates
  rw [h] at hi
  rw [show ("" : String).data = [] from rfl, List.infix_nil] at hi
  exact absurd hi (by decide)

theorem installedMsg_ne (pkg manager : String) : installedMsg pkg manager ≠ "" := by
  intro h
  have hd := congrArg String.data h
  simp only [installedMsg, String.data_append] at hd
  simp at hd

theorem installedMsg_contains_pkg (pkg manager : String) :
    containsStr (installedMsg pkg manager) pkg = true := by
  apply containsStr_of_infix
  refine ⟨("Package was not found:" ++ "\n\tPackage name: ").data,
    ("\n\tPackage manager: ").data ++ manager.data, ?_⟩
  simp [installedMsg, String.data_append, List.append_assoc]

theorem installedMsg_contains_manager (pkg manager : String) :
    containsStr (installedMsg pkg manager) manager = true := by
  apply containsStr_of_infix
  refine ⟨("Package was not found:" ++ "\n\tPackage name: " ++ pkg ++
    "\n\tPackage manager: ").data, [], ?_⟩
  simp [installedMsg, String.data_append, List.append_assoc]

theorem assembleRepos_length (fullNames urls : List String) :
    (assembleRepos fullNames urls).length = min fullNames.length urls.length := by
  simp only [assembleRepos, List.length_map, List.length_range]
  split <;> omega

theorem assembleRepos_getq (fullNames urls : List String) (i : Nat) :
    (assembleRepos fullNames urls).get? i =
      (fullNames.get? i).bind fun fn => (urls.get? i).map fun url => mkYumRepo fn url := by
  have hn : (if fullNames.length > urls.length then urls else fullNames).length =
      min fullNames.length urls.length := by
    split <;> omega
  by_cases hi : i < min fullNames.length urls.length
  · have hif : i < fullNames.length := by omega
    have hiu : i < urls.length := by omega
    have hgf : fullNames.getD i "" = fullNames.get ⟨i, hif⟩ := by
      rw [List.getD_eq_get?, List.get?_eq_get hif]
      rfl
    have hgu : urls.getD i "" = urls.get ⟨i, hiu⟩ := by
      rw [List.getD_eq_get?, List.get?_eq_get hiu]
      rfl
    rw [List.get?_eq_get hif, List.get?_eq_get hiu]
    simp only [assembleRepos, List.get?_map]
    rw [List.get?_range (by rw [hn]; omega)]
    simp only [Option.map_some', Option.some_bind]
    rw [hgf, hgu]
  · have hL : (assembleRepos fullNames urls).get? i = none := by
      rw [List.get?_eq_none, assembleRepos_length]
      omega
    rw [hL]
    rcases Nat.lt_or_ge i fullNames.length with hf | hf
    · have hu : urls.length ≤ i := by omega
      rw [List.get?_eq_get hf, (List.get?_eq_none).mpr hu]
      rfl
    · rw [(List.get?_eq_none).mpr hf]
      rfl

theorem infix_joinSpace {p : String} : ∀ {l : List String}, p ∈ l →
    p.data <:+: (joinSpace l).data := by
  intro l
  induction l with
  | nil => intro h; cases h
  | cons x rest ih =>
    intro h
    rcases List.mem_cons.mp h with rfl | hm
    · cases rest with
      | nil => exact ⟨[], [], by simp [joinSpace]⟩
      | cons y t =>
        refine ⟨[], (" " ++ joinSpace (y :: t)).data, ?_⟩
        simp [joinSpace, String.data_append, List.append_assoc]
    · cases rest with
      | nil => cases hm
      | cons y t =>
        rcases ih hm with ⟨s, u, hsu⟩
        refine ⟨(x ++ " ").data ++ s, u, ?_⟩
        simp only [joinSpace, String.data_append, List.append_assoc]
        simp [← hsu]

theorem infix_sprintList {p : String} {l : List String} (h : p ∈ l) :
    p.data <:+: (sprintList l).data := by
  rcases infix_joinSpace h with ⟨s, t, hst⟩
  refine ⟨("[").data ++ s, t ++ ("]").data, ?_⟩
  simp only [sprintList, String.data_append, List.append_assoc]
  simp [← List.append_assoc, hst]

theorem getManagerLoop_eq_some (probeErr : String → Option String) :
    ∀ (ms : List String) (c : String), getManagerLoop probeErr ms = some c ↔
      ∃ l1 l2, ms = l1 ++ c :: l2 ∧ goodProbe probeErr c = true ∧
        ∀ p ∈ l1, goodProbe probeErr p = false := by
  intro ms
  induction ms with
  | nil =>
    intro c
    constructor
    · intro h; simp [getManagerLoop] at h
    · rintro ⟨l1, l2, h, -, -⟩
      exact absurd h.symm (by simp)
  | cons q rest ih =>
    intro c
    by_cases hg : goodProbe probeErr q = true
    · simp only [getManagerLoop, hg, if_true, Option.some.injEq]
      constructor
      · rintro rfl
        exact ⟨[], rest, by simp, hg, by simp⟩
      · rintro ⟨l1, l2, heq, hgc, hl1⟩
        cases l1 with
        | nil =>
          simp only [List.nil_append, List.cons.injEq] at heq
          exact heq.1
        | cons r l1t =>
          simp only [List.cons_append, List.cons.injEq] at heq
          have := hl1 r (by simp)
          rw [← heq.1] at this
          rw [hg] at this
          cases this
    · have hg' : goodProbe probeErr q = false := by
        cases hgv : goodProbe probeErr q
        · rfl
        · exact absurd hgv hg
      simp only [getManagerLoop, hg', Bool.false_eq_true, if_false]
      rw [ih c]
      constructor
      · rintro ⟨l1, l2, heq, hgc, hl1⟩
        refine ⟨q :: l1, l2, by simp [heq], hgc, ?_⟩
        intro p hp
        rcases List.mem_cons.mp hp with rfl | hpm
        · exact hg'
        · exact hl1 p hpm
      · rintro ⟨l1, l2, heq, hgc, hl1⟩
        cases l1 with
        | nil =>
          simp only [List.nil_append, List.cons.injEq] at heq
          rw [heq.1] at hg'
          rw [hgc] at hg'
          cases hg'
        | cons r l1t =>
          simp only [List.cons_append, List.cons.injEq] at heq
          exact ⟨l1t, l2, heq.2, hgc, fun p hp => hl1 p (by simp [hp])⟩

theorem getManagerLoop_none (probeErr : String → Option String) :
    ∀ ms : List String, (∀ p ∈ ms, goodProbe probeErr p = false) →
      getManagerLoop probeErr ms = none := by
  intro ms
  induction ms with
  | nil => intro _; rfl
  | cons q rest ih =>
    intro h
    have hq := h q (by simp)
    simp only [getManagerLoop, hq, Bool.false_eq_true, if_false]
    exact ih (fun p hp => h p (by simp [hp]))

theorem getq_eq_some_getD {l : List String} {i : Nat} (h : i < l.length) :
    l.get? i = some (l.getD i "") := by
  rw [List.get?_eq_get h, List.getD_eq_get?, List.get?_eq_get h]
  rfl

theorem ppaScan_skip (validURL : String → Bool) (name : String) :
    ∀ (l1 rest : List String),
      (∀ p ∈ l1, validURL p = true ∧ containsStr p name = false) →
      ppaScan validURL name (l1 ++ rest) = ppaScan validURL name rest := by
  intro l1
  induction l1 with
  | nil => intro rest _; rfl
  | cons q l1t ih =>
    intro rest h
    have hq := h q (by simp)
    simp only [List.cons_append, ppaScan, hq.1, hq.2, Bool.not_true, Bool.false_eq_true,
      if_false]
    exact ih rest (fun p hp => h p (by simp [hp]))

theorem ppaScan_bad (validURL : String → Bool) (name bad : String) (l2 : List String)
    (hb : validURL bad = false) :
    ppaScan validURL name (bad :: l2) = some (1, "PPA URL invalid: " ++ bad) := by
  simp [ppaScan, hb]

theorem ppaScan_pass (validURL : String → Bool) (name : String) :
    ∀ ppas : List String, ppaScan validURL name ppas = some (0, "") →
      ∃ p ∈ ppas, validURL p = true ∧ containsStr p name = true := by
  intro ppas
  induction ppas with
  | nil => intro h; cases h
  | cons q rest ih =>
    intro h
    cases hv : validURL q with
    | false =>
      rw [ppaScan_bad validURL name q rest hv] at h
      simp at h
    | true =>
      cases hc : containsStr q name with
      | true => exact ⟨q, by simp, hv, hc⟩
      | false =>
        simp only [ppaScan, hv, hc, Bool.not_true, Bool.false_eq_true, if_false] at h
        rcases ih h with ⟨p, hm, hp⟩
        exact ⟨p, by simp [hm], hp⟩

theorem svcScan_true_iff (service state : String) (statuses : List String) :
    ∀ (names : List String) (i : Nat) (a : String),
      (svcScan service state statuses names i a).1 = true ↔
        ∃ j, names.get? j = some service ∧ statuses.get? (i + j) = some state := by
  intro names
  induction names with
  | nil =>
    intro i a
    simp [svcScan]
  | cons srv rest ih =>
    intro i a
    by_cases hm : service = srv ∧ i < statuses.length
    · by_cases ha : statuses.getD i "" = state
      · simp only [svcScan, if_pos hm, if_pos ha]
        constructor
        · intro _
          refine ⟨0, by simp [hm.1], ?_⟩
          rw [Nat.add_zero, getq_eq_some_getD hm.2, ha]
        · intro _; trivial
      · simp only [svcScan, if_pos hm, if_neg ha]
        rw [ih (i + 1) (statuses.getD i "")]
        constructor
        · rintro ⟨j, h1, h2⟩
          refine ⟨j + 1, h1, ?_⟩
          have harith : i + (j + 1) = i + 1 + j := by omega
          rw [harith]
          exact h2
        · rintro ⟨j, h1, h2⟩
          cases j with
          | zero =>
            rw [Nat.add_zero, getq_eq_some_getD hm.2] at h2
            have hval : statuses.getD i "" = state := by
              simpa using h2
            exact absurd hval ha
          | succ j0 =>
            refine ⟨j0, h1, ?_⟩
            have harith : i + 1 + j0 = i + (j0 + 1) := by omega
            rw [harith]
            exact h2
    · simp only [svcScan, if_neg hm]
      rw [ih (i + 1) a]
      constructor
      · rintro ⟨j, h1, h2⟩
        refine ⟨j + 1, h1, ?_⟩
        have harith : i + (j + 1) = i + 1 + j := by omega
        rw [harith]
        exact h2
      · rintro ⟨j, h1, h2⟩
        cases j with
        | zero =>
          rcases Decidable.not_and_iff_or_not.mp hm with hs | hi
          · have h1' : srv = service := by simpa using h1
            exact absurd h1'.symm hs
          · rw [Nat.add_zero, (List.get?_eq_none).mpr (Nat.le_of_not_lt hi)] at h2
            cases h2
        | succ j0 =>
          refine ⟨j0, h1, ?_⟩
          have harith : i + 1 + j0 = i + (j0 + 1) := by omega
          rw [harith]
          exact h2

/-! ## Claim theorems -/

/-- C4: the backend prober returns the first candidate whose probe does
not fail with a "not found" signal (any other failure still counts as
found), and when the candidate sequence is empty or every candidate
fails with "not found" it terminates the process (`Except.error`, never
a backend, never a silent pass) with a diagnostic listing every
attempted candidate. -/
theorem claim_backend_prober (probeErr : String → Option String) (managers : List String) :
    (∀ c, getManager probeErr managers = Except.ok c ↔
      ∃ l1 l2, managers = l1 ++ c :: l2 ∧ goodProbe probeErr c = true ∧
        ∀ p ∈ l1, goodProbe probeErr p = false) ∧
    ((∀ p ∈ managers, goodProbe probeErr p = false) →
      getManager probeErr managers =
        Except.error ("No package manager found. Attempted: " ++ sprintList managers) ∧
      ∀ p ∈ managers, containsStr
        ("No package manager found. Attempted: " ++ sprintList managers) p = true) := by
  constructor
  · intro c
    cases hl : getManagerLoop probeErr managers with
    | some q =>
      simp only [getManager, hl, Except.ok.injEq]
      constructor
      · rintro rfl
        exact (getManagerLoop_eq_some probeErr managers q).mp hl
      · intro hr
        have := (getManagerLoop_eq_some probeErr managers c).mpr hr
        rw [hl] at this
        exact (Option.some.injEq _ _).mp this
    | none =>
      simp only [getManager, hl]
      constructor
      · intro h; cases h
      · intro hr
        have := (getManagerLoop_eq_some probeErr managers c).mpr hr
        rw [hl] at this
        cases this
  · intro hall
    have hn := getManagerLoop_none probeErr managers hall
    refine ⟨by simp [getManager, hn], ?_⟩
    intro p hp
    apply containsStr_of_infix
    have h1 : p.data <:+: (sprintList managers).data := infix_sprintList hp
    have h2 : (sprintList managers).data <:+:
        ("No package manager found. Attempted: " ++ sprintList managers).data := by
      rw [String.data_append]
      exact (List.suffix_append _ _).isInfix
    exact h1.trans h2

/-- C4 witness: with every candidate failing to start with a "not
found" error the prober terminates fatally, naming all candidates. -/
theorem claim_backend_prober_witness :
    getManager (fun _ => some "exec: executable file not found in $PATH")
        ["dpkg", "rpm", "pacman"] =
      Except.error ("No package manager found. Attempted: " ++
        sprintList ["dpkg", "rpm", "pacman"]) :=
  ((claim_backend_prober _ _).2 (by decide)).1

/-- C6: the package-installed check succeeds with `(0, "")` exactly
when the selected manager's query output contains the package name as a
substring, and otherwise fails with exit code 1 and a message naming
the package and the manager. -/
theorem claim_installed_substring (probeErr : String → Option String)
    (queryOut : String → String) (keys : List String) (pkg manager : String)
    (h : getManager probeErr keys = Except.ok manager) :
    (Installed probeErr queryOut keys pkg = Outcome.result 0 "" ↔
      containsStr (queryOut manager) pkg = true) ∧
    (containsStr (queryOut manager) pkg = false →
      Installed probeErr queryOut keys pkg = Outcome.result 1 (installedMsg pkg manager) ∧
      containsStr (installedMsg pkg manager) pkg = true ∧
      containsStr (installedMsg pkg manager) manager = true) := by
  constructor
  · cases hc : containsStr (queryOut manager) pkg <;> simp [Installed, h, hc]
  · intro hcf
    exact ⟨by simp [Installed, h, hcf],
      installedMsg_contains_pkg pkg manager,
      installedMsg_contains_manager pkg manager⟩

/-- C6 witness: with dpkg selected and query output listing vim, the
check passes with `(0, "")`. -/
theorem claim_installed_substring_witness :
    Installed (fun _ => none) (fun _ => "ii  vim  2:9.0  editor") ["dpkg"] "vim" =
      Outcome.result 0 "" := by
  have h := claim_installed_substring (fun _ => none)
    (fun _ => "ii  vim  2:9.0  editor") ["dpkg"] "vim" "dpkg" (by rfl)
  exact h.1.mpr (by decide)

/-- C2: record assembly produces exactly `min (len fullNames) (len urls)`
records, pairing the two columns by position and silently dropping
excess entries of the longer column, with no index error; this also
holds for `getYumRepos` over its two extracted columns. -/
theorem claim_yum_assemble_min_length :
    (∀ fullNames urls : List String,
        (assembleRepos fullNames urls).length = min fullNames.length urls.length) ∧
    (∀ fullNames urls : List String, ∀ i : Nat,
        (assembleRepos fullNames urls).get? i =
          (fullNames.get? i).bind fun fn => (urls.get? i).map fun url => mkYumRepo fn url) ∧
    (∀ lines : List String,
        (getYumRepos lines).length = min (yumNames lines).length (yumUrls lines).length) :=
  ⟨assembleRepos_length, assembleRepos_getq, fun _ => assembleRepos_length _ _⟩

/-- C3: on a yum config with the two non-comment lines
`name=Fedora 38 - x86_64 (updates)` and
`baseurl=https://example.com/updates`, exactly one record is assembled,
its short name being the last whitespace token of the full name; the
by-name check for "(updates)" passes with `(0, "")` and the by-name
check for "nomatch" fails with exit 1 and a message mentioning
"(updates)". -/
theorem claim_yum_scenario :
    getYumRepos ["# generated by config tool",
        "name=Fedora 38 - x86_64 (updates)", "baseurl=https://example.com/updates"] =
      [{ Name := "(updates)", Fullname := "Fedora 38 - x86_64 (updates)",
         Url := "https://example.com/updates" }] ∧
    YumRepoExists ["# generated by config tool",
        "name=Fedora 38 - x86_64 (updates)", "baseurl=https://example.com/updates"]
        "(updates)" = Outcome.result 0 "" ∧
    YumRepoExists ["# generated by config tool",
        "name=Fedora 38 - x86_64 (updates)", "baseurl=https://example.com/updates"]
        "nomatch" = Outcome.result 1
          "Yum repo with given Name not found\n\tExpected: nomatch\n\tCandidates: [(updates)]" ∧
    containsStr
      "Yum repo with given Name not found\n\tExpected: nomatch\n\tCandidates: [(updates)]"
      "(updates)" = true := by
  decide

/-- C5: for every target and ordered PPA candidate list, a candidate
failing URL parsing before any entry containing the target aborts the
check with `(1, "PPA URL invalid: " ++ entry)` regardless of the
target; `(0, "")` is returned only when some entry both parses and
contains the target; and when every entry parses and none contains the
target, the generic mismatch failure lists all PPA candidates. -/
theorem claim_ppa_invalid_aborts (validURL : String → Bool) (name : String) :
    (∀ l1 bad l2, (∀ p ∈ l1, validURL p = true ∧ containsStr p name = false) →
      validURL bad = false →
      ppaResult validURL name (l1 ++ bad :: l2) = (1, "PPA URL invalid: " ++ bad)) ∧
    (∀ ppas, ppaResult validURL name ppas = (0, "") →
      ∃ p ∈ ppas, validURL p = true ∧ containsStr p name = true) ∧
    (∀ ppas, (∀ p ∈ ppas, validURL p = true ∧ containsStr p name = false) →
      ppaResult validURL name ppas = genericError "PPA not found" name ppas) := by
  refine ⟨?_, ?_, ?_⟩
  · intro l1 bad l2 h1 hb
    rw [ppaResult, ppaScan_skip validURL name l1 (bad :: l2) h1,
      ppaScan_bad validURL name bad l2 hb]
  · intro ppas h
    cases hs : ppaScan validURL name ppas with
    | some r =>
      rw [ppaResult, hs] at h
      have hr : r = (0, "") := h
      rw [hr] at hs
      exact ppaScan_pass validURL name ppas hs
    | none =>
      rw [ppaResult, hs] at h
      have h1 := congrArg Prod.fst h
      simp [genericError] at h1
  · intro ppas hall
    have hn : ppaScan validURL name ppas = none := by
      have hskip := ppaScan_skip validURL name ppas [] hall
      rw [List.append_nil] at hskip
      exact hskip
    rw [ppaResult, hn]

/-- C5 witness: a valid entry without the target, then an invalid
entry, then a valid entry with the target: the check aborts on the
invalid entry without considering the later match. -/
theorem claim_ppa_invalid_aborts_witness :
    ppaResult (fun s => s != "%%bad%%") "tgt"
        ["http://ppa.example/one", "%%bad%%", "http://ppa.example/tgt"] =
      (1, "PPA URL invalid: " ++ "%%bad%%") :=
  (claim_ppa_invalid_aborts (fun s => s != "%%bad%%") "tgt").1
    ["http://ppa.example/one"] "%%bad%%" ["http://ppa.example/tgt"]
    (by decide) (by decide)

/-- C8: with systemctl available, a unit check passes exactly when some
index of the extracted unit-name column equals the target while the
same index of the extracted state column equals the fixed literal
("loaded" for the loaded check, "active" for the active check). -/
theorem claim_systemctl_service_state (versionErr : Option String) (lines : List String)
    (service : String) (loaded : Bool) (h : systemctlExists versionErr = true) :
    systemctlService versionErr lines service loaded = Outcome.result 0 "" ↔
      ∃ i, (commandColumnNoHeader 1 lines).get? i = some service ∧
        (commandColumnNoHeader ((if loaded then 1 else 2) + 1) lines).get? i =
          some (if loaded then "loaded" else "active") := by
  have hiff := svcScan_true_iff service (if loaded then "loaded" else "active")
    (commandColumnNoHeader ((if loaded then 1 else 2) + 1) lines)
    (commandColumnNoHeader 1 lines) 0 ""
  simp only [Nat.zero_add] at hiff
  simp only [systemctlService, h, Bool.true_eq_false, if_false]
  rcases hs : svcScan service (if loaded then "loaded" else "active")
      (commandColumnNoHeader ((if loaded then 1 else 2) + 1) lines)
      (commandColumnNoHeader 1 lines) 0 "" with ⟨b, a⟩
  rw [hs] at hiff
  cases b with
  | true =>
    simp only []
    constructor
    · intro _
      exact hiff.mp rfl
    · intro _
      trivial
  | false =>
    simp only []
    constructor
    · intro he
      have h1 := congrArg (fun o => match o with
        | Outcome.result c _ => c
        | _ => 2) he
      simp [Outcome.ofPair, genericError] at h1
    · intro hex
      have hfalse : (false : Bool) = true := hiff.mpr hex
      cases hfalse

/-- C8 witness: list-units output whose data row carries
`nginx.service` in the unit-name column and `active` in the state
column makes the active check pass with `(0, "")`. -/
theorem claim_systemctl_service_state_witness :
    systemctlActive none
        ["UNIT LOAD ACTIVE SUB DESCRIPTION",
         "x nginx.service loaded active running web server"]
        "nginx.service" = Outcome.result 0 "" := by
  have h := claim_systemctl_service_state none
    ["UNIT LOAD ACTIVE SUB DESCRIPTION",
     "x nginx.service loaded active running web server"]
    "nginx.service" false (by decide)
  exact h.mpr ⟨0, by decide, by decide⟩

/-- C10: when either extracted column of list-unit-files output has
fewer than two entries (for example on empty output), the unit-file
status check panics from the out-of-range slice instead of returning an
exit-code/message pair. -/
theorem claim_ufs_short_columns_panic (lines : List String) (unit status : String)
    (h : (commandColumnNoHeader 0 lines).length < 2 ∨
      (commandColumnNoHeader 1 lines).length < 2) :
    systemctlUnitFileStatus lines unit status = Outcome.panicked := by
  have key : ∀ xs : List String, xs.length < 2 →
      goSliceTo xs ((xs.length : Int) - 2) = none := by
    intro xs hxs
    simp only [goSliceTo]
    rw [if_neg]
    rintro ⟨h1, -⟩
    omega
  rcases h with h | h
  · rcases h2s : goSliceTo (commandColumnNoHeader 1 lines)
        (((commandColumnNoHeader 1 lines).length : Int) - 2) with _ | v
    · simp [systemctlUnitFileStatus, key _ h, h2s]
    · simp [systemctlUnitFileStatus, key _ h, h2s]
  · rcases h1s : goSliceTo (commandColumnNoHeader 0 lines)
        (((commandColumnNoHeader 0 lines).length : Int) - 2) with _ | v
    · simp [systemctlUnitFileStatus, key _ h, h1s]
    · simp [systemctlUnitFileStatus, key _ h, h1s]

/-- C10 witness: on empty command output the unit-file status check
panics. -/
theorem claim_ufs_short_columns_panic_witness :
    systemctlUnitFileStatus [] "nginx.service" "enabled" = Outcome.panicked :=
  claim_ufs_short_columns_panic [] "nginx.service" "enabled" (Or.inl (by decide))

/-- C9 counterexample: on an empty yum config no repo record exists, so
the lookup of the unsupported property "Version" returns a check result
`(1, message)` instead of terminating the process. -/
theorem claim_yum_prop_cex :
    existsRepoWithProperty [] "Version" "1" = Outcome.result 1
      "Yum repo with given Version not found\n\tExpected: 1\n\tCandidates: []" ∧
    ("Version" ≠ "Url" ∧ "Version" ≠ "Name" ∧ "Version" ≠ "Fullname") := by
  decide

/-- C9 (amended): for every property name other than "Url", "Name" and
"Fullname", the yum repo-property lookup terminates the process with a
diagnostic naming the unsupported property, provided at least one repo
record was assembled from the config; with zero records it instead
returns the generic mismatch failure. -/
theorem claim_yum_prop_fatal (lines : List String) (prop val : String)
    (h1 : prop ≠ "Url") (h2 : prop ≠ "Name") (h3 : prop ≠ "Fullname")
    (h4 : getYumRepos lines ≠ []) :
    existsRepoWithProperty lines prop val =
      Outcome.fatal ("Yum repos don't have the requested property: " ++ prop) := by
  rcases hr : getYumRepos lines with _ | ⟨r, rs⟩
  · exact absurd hr h4
  · simp [existsRepoWithProperty, hr, collectProps, propOf, h1, h2, h3]

/-- C9 witness: a one-record config with the unsupported property
"Version" terminates fatally, naming the property. -/
theorem claim_yum_prop_fatal_witness :
    existsRepoWithProperty ["name=Main Repo", "baseurl=http://mirror.example/main"]
        "Version" "1" =
      Outcome.fatal ("Yum repos don't have the requested property: " ++ "Version") :=
  claim_yum_prop_fatal ["name=Main Repo", "baseurl=http://mirror.example/main"]
    "Version" "1" (by decide) (by decide) (by decide) (by decide)

/-- C7 counterexample: a config consisting of exactly the line
`IgnorePkg = foo bar` at the very start of the file is never matched,
because the regexp consumes one non-hash character before "IgnorePkg";
the ignore-check for "bar" therefore fails with an empty candidate
list. -/
theorem claim_pacman_cex :
    pacmanIgnore "IgnorePkg = foo bar" "bar" =
      genericError "Couldn't find package in IgnorePkg" "bar" [] ∧
    (pacmanIgnore "IgnorePkg = foo bar" "bar").1 = 1 := by
  decide

/-- C7 (amended): when the first `IgnorePkg =` line is
`IgnorePkg = foo bar` and is preceded by at least one non-hash
character (here the newline after a comment line), the candidates are
the space-split tokens after "IgnorePkg" and "=": the check for "bar"
returns `(0, "")`, the check for "baz" fails listing ["foo", "bar"],
and membership is exact, so the proper substring "fo" also fails. -/
theorem claim_pacman_scenario :
    pacmanIgnore "# settings\nIgnorePkg = foo bar\nHoldPkg = glibc\n" "bar" = (0, "") ∧
    pacmanIgnore "# settings\nIgnorePkg = foo bar\nHoldPkg = glibc\n" "baz" =
      genericError "Couldn't find package in IgnorePkg" "baz" ["foo", "bar"] ∧
    containsStr
      (genericError "Couldn't find package in IgnorePkg" "baz" ["foo", "bar"]).2
      "foo" = true ∧
    containsStr
      (genericError "Couldn't find package in IgnorePkg" "baz" ["foo", "bar"]).2
      "bar" = true ∧
    (pacmanIgnore "# settings\nIgnorePkg = foo bar\nHoldPkg = glibc\n" "fo").1 = 1 := by
  decide

theorem ppaScan_shape (validURL : String → Bool) (name : String) :
    ∀ (ppas : List String) (r : Nat × String), ppaScan validURL name ppas = some r →
      r = (0, "") ∨ ∃ ppa, r = (1, "PPA URL invalid: " ++ ppa) := by
  intro ppas
  induction ppas with
  | nil => intro r h; cases h
  | cons q rest ih =>
    intro r h
    cases hv : validURL q with
    | false =>
      rw [ppaScan_bad validURL name q rest hv] at h
      exact Or.inr ⟨q, ((Option.some.injEq _ _).mp h).symm⟩
    | true =>
      cases hc : containsStr q name with
      | true =>
        simp only [ppaScan, hv, hc, Bool.not_true, Bool.false_eq_true, if_false,
          if_true] at h
        exact Or.inl ((Option.some.injEq _ _).mp h).symm
      | false =>
        simp only [ppaScan, hv, hc, Bool.not_true, Bool.false_eq_true, if_false] at h
        exact ih r h

theorem ufsScan_shape (unit status : String) (statuses : List String) :
    ∀ (units : List String) (i : Nat) (a : String),
      ufsScan unit status statuses units i a = Outcome.panicked ∨
      ufsScan unit status statuses units i a = Outcome.result 0 "" ∨
      ∃ actual, ufsScan unit status statuses units i a =
        Outcome.ofPair (genericError "Unit didn't have status" status [actual]) := by
  intro units
  induction units with
  | nil =>
    intro i a
    exact Or.inr (Or.inr ⟨a, rfl⟩)
  | cons un rest ih =>
    intro i a
    by_cases hu : un = unit
    · cases hgq : statuses[i]? with
      | none =>
        left
        simp [ufsScan, if_pos hu, List.get?_eq_getElem?, hgq]
      | some s =>
        by_cases hs : s = status
        · right; left
          simp [ufsScan, if_pos hu, List.get?_eq_getElem?, hgq, hs]
        · simp only [ufsScan, if_pos hu, List.get?_eq_getElem?, hgq, if_neg hs]
          exact ih (i + 1) s
    · simp only [ufsScan, if_neg hu]
      exact ih (i + 1) a

/-- C1 counterexample: the package-installed check's mismatch failure
carries exit code 1 and a non-empty message, but that message is not an
output of the generic mismatch reporter for any label, expected value
and candidate list (every reporter output contains the fixed
"Expected:" segment, this message does not). -/
theorem claim_catalog_cex :
    Installed (fun _ => none) (fun _ => "") ["dpkg"] "vim" = Outcome.result 1
      "Package was not found:\n\tPackage name: vim\n\tPackage manager: dpkg" ∧
    ¬ isGenericMessage
      "Package was not found:\n\tPackage name: vim\n\tPackage manager: dpkg" := by
  constructor
  · decide
  · rintro ⟨l, e, c, hm⟩
    have hi := expectedLit_infix l e c
    rw [hm] at hi
    exact absurd hi (by decide)

/-- C1 (amended): for every check in the catalog a successful
invocation returns exactly `(0, "")`; every failure carries exit code 1
and a non-empty message; apart from the package-installed check (whose
mismatch message is its own fixed shape) and the PPA check's
invalid-URL abort, every mismatch failure is the generic mismatch
reporter's output built from the check's label, expected value and
candidate values; environment failures are fatal (or, for the
unit-file check, a panic), never check results. -/
theorem claim_catalog_shapes :
    (∀ label expected candidates, (genericError label expected candidates).1 = 1 ∧
      (genericError label expected candidates).2 ≠ "") ∧
    (∀ pkg manager, installedMsg pkg manager ≠ "") ∧
    (∀ ppa, ("PPA URL invalid: " ++ ppa) ≠ "") ∧
    (∀ probeErr queryOut keys pkg,
      (∃ m, Installed probeErr queryOut keys pkg = Outcome.fatal m) ∨
      Installed probeErr queryOut keys pkg = Outcome.result 0 "" ∨
      ∃ manager, Installed probeErr queryOut keys pkg =
        Outcome.result 1 (installedMsg pkg manager)) ∧
    (∀ validURL name ppas,
      ppaResult validURL name ppas = (0, "") ∨
      (∃ ppa, ppaResult validURL name ppas = (1, "PPA URL invalid: " ++ ppa)) ∨
      ppaResult validURL name ppas = genericError "PPA not found" name ppas) ∧
    (∀ lines prop val,
      (∃ m, existsRepoWithProperty lines prop val = Outcome.fatal m) ∨
      existsRepoWithProperty lines prop val = Outcome.result 0 "" ∨
      ∃ props, existsRepoWithProperty lines prop val =
        Outcome.ofPair (genericError ("Yum repo with given " ++ prop ++ " not found")
          val props)) ∧
    (∀ data pkg,
      pacmanIgnore data pkg = (0, "") ∨
      ∃ packages, pacmanIgnore data pkg =
        genericError "Couldn't find package in IgnorePkg" pkg packages) ∧
    (∀ versionErr lines service loaded,
      systemctlService versionErr lines service loaded =
        Outcome.fatal "Couldn't execute systemctl" ∨
      systemctlService versionErr lines service loaded = Outcome.result 0 "" ∨
      ∃ actual, systemctlService versionErr lines service loaded =
        Outcome.ofPair (genericError "Service did not have state"
          (if loaded then "loaded" else "active") [actual])) ∧
    (∀ versionErr lines value path,
      systemctlSock versionErr lines value path =
        Outcome.fatal "Couldn't execute systemctl" ∨
      systemctlSock versionErr lines value path = Outcome.result 0 "" ∨
      systemctlSock versionErr lines value path =
        Outcome.ofPair (genericError "Socket not found" value
          (commandColumnNoHeader (if path then 0 else 1) lines))) ∧
    (∀ cmdOut unit,
      (∃ m, timersThunk cmdOut unit = Outcome.fatal m) ∨
      timersThunk cmdOut unit = Outcome.result 0 "" ∨
      ∃ timers, timersThunk cmdOut unit =
        Outcome.ofPair (genericError "Timer not found" unit timers)) ∧
    (∀ lines unit status,
      systemctlUnitFileStatus lines unit status = Outcome.panicked ∨
      systemctlUnitFileStatus lines unit status = Outcome.result 0 "" ∨
      ∃ actual, systemctlUnitFileStatus lines unit status =
        Outcome.ofPair (genericError "Unit didn't have status" status [actual])) := by
  refine ⟨?_, ?_, ?_, ?_, ?_, ?_, ?_, ?_, ?_, ?_, ?_⟩
  · intro label expected candidates
    exact ⟨genericError_exit label expected candidates,
      genericError_msg_ne label expected candidates⟩
  · exact installedMsg_ne
  · intro ppa h
    have hd := congrArg String.data h
    simp only [String.data_append] at hd
    simp at hd
  · intro probeErr queryOut keys pkg
    cases hg : getManager probeErr keys with
    | error m =>
      exact Or.inl ⟨m, by simp [Installed, hg]⟩
    | ok name =>
      cases hc : containsStr (queryOut name) pkg with
      | true => exact Or.inr (Or.inl (by simp [Installed, hg, hc]))
      | false => exact Or.inr (Or.inr ⟨name, by simp [Installed, hg, hc]⟩)
  · intro validURL name ppas
    cases hs : ppaScan validURL name ppas with
    | none =>
      right; right
      rw [ppaResult, hs]
    | some r =>
      rcases ppaScan_shape validURL name ppas r hs with hr | ⟨ppa, hr⟩
      · left
        rw [ppaResult, hs, hr]
      · right; left
        exact ⟨ppa, by rw [ppaResult, hs, hr]⟩
  · intro lines prop val
    cases hcp : collectProps prop (getYumRepos lines) with
    | error m =>
      exact Or.inl ⟨m, by simp [existsRepoWithProperty, hcp]⟩
    | ok props =>
      cases hsi : strIn val props with
      | true => exact Or.inr (Or.inl (by simp [existsRepoWithProperty, hcp, hsi]))
      | false => exact Or.inr (Or.inr ⟨props, by simp [existsRepoWithProperty, hcp, hsi]⟩)
  · intro data pkg
    cases hsi : strIn pkg (pacmanPackages data) with
    | true => exact Or.inl (by simp [pacmanIgnore, hsi])
    | false => exact Or.inr ⟨pacmanPackages data, by simp [pacmanIgnore, hsi]⟩
  · intro versionErr lines service loaded
    cases hv : systemctlExists versionErr with
    | false => exact Or.inl (by simp [systemctlService, hv])
    | true =>
      simp only [systemctlService, hv, Bool.true_eq_false, if_false]
      rcases hs : svcScan service (if loaded then "loaded" else "active")
          (commandColumnNoHeader ((if loaded then 1 else 2) + 1) lines)
          (commandColumnNoHeader 1 lines) 0 "" with ⟨b, a⟩
      cases b with
      | true => exact Or.inr (Or.inl rfl)
      | false => exact Or.inr (Or.inr ⟨a, rfl⟩)
  · intro versionErr lines value path
    cases hv : systemctlExists versionErr with
    | false => exact Or.inl (by simp [systemctlSock, hv])
    | true =>
      cases hsi : strIn value (commandColumnNoHeader (if path then 0 else 1) lines) with
      | true => exact Or.inr (Or.inl (by simp [systemctlSock, hv, hsi]))
      | false => exact Or.inr (Or.inr (by simp [systemctlSock, hv, hsi, Outcome.ofPair]))
  · intro cmdOut unit
    cases hg : getTimers cmdOut with
    | error m => exact Or.inl ⟨m, by simp [timersThunk, hg]⟩
    | ok timers =>
      cases hsi : strIn unit timers with
      | true => exact Or.inr (Or.inl (by simp [timersThunk, hg, hsi]))
      | false => exact Or.inr (Or.inr ⟨timers, by simp [timersThunk, hg, hsi]⟩)
  · intro lines unit status
    rcases h1s : goSliceTo (commandColumnNoHeader 0 lines)
        (((commandColumnNoHeader 0 lines).length : Int) - 2) with _ | units
    · exact Or.inl (by simp [systemctlUnitFileStatus, h1s])
    · rcases h2s : goSliceTo (commandColumnNoHeader 1 lines)
          (((commandColumnNoHeader 1 lines).length : Int) - 2) with _ | statuses
      · exact Or.inl (by simp [systemctlUnitFileStatus, h1s, h2s])
      · have hred : systemctlUnitFileStatus lines unit status =
            ufsScan unit status statuses units 0 "" := by
          simp [systemctlUnitFileStatus, h1s, h2s]
        rw [hred]
        exact ufsScan_shape unit status statuses units 0 ""
